import Mathlib

/-!
Verification of the Resume-Website-Builder static-site generator.

The definitions below are shallow embeddings of the JavaScript sources:
  * `scripts/build.js`   — template helpers (`formatDate`, `if`, `each`,
    `unless`), `generateColorStyles`, `copyDirectory`, `generateCNAME`;
  * `scripts/validate-config.js` — `validatePersonal`, `isValidEmail`,
    `displayResults`;
  * the development watch loop (`triggerRebuild` / `rebuild`) — debounce
    timer, `buildInProgress` flag.

JavaScript values coming out of the parsed JSON config are modelled by
`JsValue` (JSON has no `NaN`/`Infinity`, and a missing property reads as
`undefined`, so the constructors below cover the reachable value space).
Machine-level details that the claims do not touch (ANSI color logging,
`process.exit` codes beyond pass/fail, real wall-clock time) are not
modelled; timestamps are `Nat` milliseconds.
-/

namespace ResumeBuilder

/-- A JavaScript value as it can appear in the parsed JSON config, or as
`undefined` when a property lookup misses.  JSON cannot encode `NaN`, so
numbers are exact integers here (fractional values never reach the helper
conditionals in this code base, and their truthiness would not differ). -/
inductive JsValue where
  | undefined
  | null
  | bool (b : Bool)
  | num (n : Int)
  | str (s : String)
  | arr (elems : List JsValue)
  | obj

/-- JavaScript truthiness, as used by `if (conditional)` in build.js:
`undefined`, `null`, `false`, `0` and `""` are falsy; every array and
object (empty or not) is truthy. -/
def truthy : JsValue → Bool
  | .undefined => false
  | .null => false
  | .bool b => b
  | .num n => n != 0
  | .str s => s != ""
  | .arr _ => true
  | .obj => true

/-- build.js, `if` helper: `if (conditional) return options.fn(this) else
return options.inverse(this)`.  With the surrounding context fixed, the two
block bodies are strings. -/
def ifHelper (conditional : JsValue) (fn inverse : String) : String :=
  if truthy conditional then fn else inverse

/-- build.js, `unless` helper: `Handlebars.helpers['if'].call(this,
!conditional, options)` — the `!` operator on the conditional. -/
def unlessHelper (conditional : JsValue) (fn inverse : String) : String :=
  ifHelper (.bool (!truthy conditional)) fn inverse

/-- The claim's enumeration of JavaScript-falsy values: empty string, 0,
null, undefined, false.  (Spec-modelled wording, compared against the
source-level `truthy` in the C2 theorem.) -/
def jsFalsySpec : JsValue → Bool
  | .str s => s == ""
  | .num n => n == 0
  | .null => true
  | .undefined => true
  | .bool b => !b
  | .arr _ => false
  | .obj => false

/-- Positional metadata the `each` helper passes to its block body:
`{data: {index: i, first: i === 0, last: i === context.length - 1}}`. -/
structure IterData where
  index : Nat
  first : Bool
  last : Bool
deriving DecidableEq, Repr

/-- build.js, `each` helper: if the context is a sequence of positive
length, loop `i = 0 .. length-1` appending `options.fn(context[i], data)`
to an accumulator that starts empty; otherwise return `''`.
`i === 0` / `i === context.length - 1` become `decide` equalities. -/
def eachHelper [Inhabited α] (context : List α) (fn : α → IterData → String) : String :=
  if context.length > 0 then
    (List.range context.length).foldl
      (fun ret i =>
        ret ++ fn (context.getD i default)
          ⟨i, decide (i = 0), decide (i = context.length - 1)⟩)
      ""
  else ""

/-- The claim's description of iteration: the concatenation, in sequence
order, of the per-element expansions, each element bound together with its
0-based index and `isFirst`/`isLast` flags.  (Spec-modelled wording,
compared against the source-level `eachHelper` in the C3 theorem.) -/
def eachSpec (context : List α) (fn : α → IterData → String) : String :=
  String.join (context.enum.map
    (fun p => fn p.2 ⟨p.1, decide (p.1 = 0), decide (p.1 = context.length - 1)⟩))

/-- The fixed 12-entry month abbreviation table from `formatDate` in
build.js. -/
def months : List String :=
  ["Jan", "Feb", "Mar", "Apr", "May", "Jun", "Jul", "Aug", "Sep", "Oct", "Nov", "Dec"]

/-- `parseInt(s, 10)` restricted to the all-digit strings on which
build.js calls it. -/
def digitsToNat (cs : List Char) : Nat :=
  cs.foldl (fun acc c => acc * 10 + (c.toNat - '0'.toNat)) 0

/-- The regex test `/^\d{4}$/.test(date)`. -/
def isYYYY (s : String) : Bool :=
  s.toList.length == 4 && s.toList.all Char.isDigit

/-- The regex test `/^\d{4}-\d{2}$/.test(date)`. -/
def isYYYYMM (s : String) : Bool :=
  s.toList.length == 7 && (s.toList.take 4).all Char.isDigit &&
    s.toList.getD 4 ' ' == '-' && (s.toList.drop 5).all Char.isDigit

/-- The regex test `/^\d{4}-\d{2}-\d{2}$/.test(date)`. -/
def isYYYYMMDD (s : String) : Bool :=
  s.toList.length == 10 && (s.toList.take 4).all Char.isDigit &&
    s.toList.getD 4 ' ' == '-' && ((s.toList.drop 5).take 2).all Char.isDigit &&
    s.toList.getD 7 ' ' == '-' && (s.toList.drop 8).all Char.isDigit

def isLeapYear (y : Nat) : Bool :=
  (y % 4 == 0 && y % 100 != 0) || y % 400 == 0

def daysInMonth (y m : Nat) : Nat :=
  if m == 2 then (if isLeapYear y then 29 else 28)
  else if m == 4 || m == 6 || m == 9 || m == 11 then 30
  else 31

/-- Whether `new Date("YYYY-MM-DDT00:00:00")` parses to a valid Date: the
engine accepts the ISO string exactly when month and day denote a real
calendar date (month 1..12, day within the month, leap years counted). -/
def isValidDate (y m d : Nat) : Bool :=
  decide (1 ≤ m) && decide (m ≤ 12) && decide (1 ≤ d) && decide (d ≤ daysInMonth y m)

/-- The final fallback of `formatDate`: `new Date(date)` followed by the
`isNaN(d.getTime())` check.  Generic JS date parsing is engine-defined, so
it is a parameter `gp`: a successful parse yields the local-time
`getMonth()` (0-based, hence `Fin 12`) and `getFullYear()`; a failed parse
returns the original string unchanged. -/
def genericRender (gp : String → Option (Fin 12 × Int)) (s : String) : String :=
  match gp s with
  | some (mi, y) => months.getD mi.val "undefined" ++ " " ++ toString y
  | none => s

/-- build.js `formatDate` helper, rules in source order.  `none` stands for
a null/undefined date value; the only falsy string is `""`.  In the
YYYY-MM branch, JS computes `monthIndex = parseInt(month, 10) - 1` and
tests `0 <= monthIndex < 12`, i.e. `1 <= parseInt(month) <= 12`; an
out-of-range month falls past the 10-character YYYY-MM-DD regex (a 7-char
string cannot match it) straight to the generic fallback.  In the
YYYY-MM-DD branch, an invalid calendar date makes `new Date` invalid,
`getMonth()` is then NaN, `months[NaN]` is the undefined value, and the
template literal prints `"undefined NaN"`. -/
def formatDate (gp : String → Option (Fin 12 × Int)) (date : Option String) : String :=
  match date with
  | none => "Present"
  | some s =>
    if s = "" ∨ s = "Present" then "Present"
    else if isYYYY s then s
    else if isYYYYMM s then
      if 1 ≤ digitsToNat (s.toList.drop 5) ∧ digitsToNat (s.toList.drop 5) ≤ 12 then
        months.getD (digitsToNat (s.toList.drop 5) - 1) "undefined" ++ " " ++
          String.mk (s.toList.take 4)
      else genericRender gp s
    else if isYYYYMMDD s then
      if isValidDate (digitsToNat (s.toList.take 4))
          (digitsToNat ((s.toList.drop 5).take 2)) (digitsToNat (s.toList.drop 8)) then
        months.getD (digitsToNat ((s.toList.drop 5).take 2) - 1) "undefined" ++ " " ++
          toString (digitsToNat (s.toList.take 4))
      else "undefined NaN"
    else genericRender gp s

/-- All the syntactic guards that precede the generic fallback. -/
def anyPattern (s : String) : Bool :=
  s == "" || s == "Present" || isYYYY s || isYYYYMM s || isYYYYMMDD s

/-- Debounce delay of the dev server watch loop: `DEBOUNCE_DELAY = 500`
milliseconds. -/
def DEBOUNCE_DELAY : Nat := 500

/-- State of the watch loop (dev server): `deadline` is the expiry time of
the pending `rebuildTimer` (`none` when no timeout is pending), `building`
is the module-global `buildInProgress` flag, and `builds` counts the
`rebuild` invocations that actually entered the build pipeline. -/
structure WatchState where
  deadline : Option Nat
  building : Bool
  builds : Nat
deriving DecidableEq, Repr

/-- Events of the single-threaded event loop: a filesystem change on a
non-ignored path at time `t` (invoking `triggerRebuild`), the event loop
firing a `setTimeout` callback scheduled for time `t`, and completion of
an in-progress build (the tail of `rebuild`, which resets
`buildInProgress`). -/
inductive WatchEvent where
  | change (t : Nat)
  | expire (t : Nat)
  | complete

/-- One step of the watch loop.
* `change t` — `triggerRebuild`: `clearTimeout(rebuildTimer)` then
  `setTimeout(..., DEBOUNCE_DELAY)`, so whatever timer was pending is
  replaced by one expiring at `t + DEBOUNCE_DELAY`.
* `expire t` — the timeout callback runs only if a timer scheduled for
  `t` is still pending (a cleared timer never fires); the callback checks
  `if (!buildInProgress) rebuild(filename)` — when a build is in progress
  it does nothing at all, and the pending timer is consumed either way.
* `complete` — end of `rebuild`: `buildInProgress = false`; nothing is
  re-queued. -/
def watchStep (s : WatchState) : WatchEvent → WatchState
  | .change t => { s with deadline := some (t + DEBOUNCE_DELAY) }
  | .expire t =>
    if s.deadline = some t then
      if s.building then { s with deadline := none }
      else { deadline := none, building := true, builds := s.builds + 1 }
    else s
  | .complete => { s with building := false }

/-- Run the watch loop over a time-ordered list of events. -/
def runWatch (s : WatchState) (events : List WatchEvent) : WatchState :=
  events.foldl watchStep s

/-- The `settings.colors` object: three optional color strings. -/
structure JsColors where
  primary : Option String
  secondary : Option String
  accent : Option String

/-- The parts of the `settings` section that build.js reads in
`generateCNAME` and `generateColorStyles`. -/
structure JsSettings where
  customDomain : Option String
  colors : Option JsColors

/-- JS `String.prototype.trim()`: strip leading and trailing whitespace.
Implemented on the character list so that it evaluates inside the kernel
(core `String.trim` is defined through `Substring` auxiliaries that do
not reduce). -/
def jsTrim (s : String) : String :=
  String.mk (((s.toList.dropWhile Char.isWhitespace).reverse.dropWhile
    Char.isWhitespace).reverse)

/-- build.js `generateCNAME`, as a function from the settings object and
the previous CNAME file state (`none` = file absent, `some c` = file with
content `c`) to the new CNAME file state.  The source checks
`config.settings && config.settings.customDomain` (truthiness: a missing
settings object, missing field, or empty string all fail), then trims and
writes only a non-empty trimmed domain; every other path runs the removal
code (`if (fs.existsSync) unlinkSync`), which leaves the file absent
whether or not it previously existed — hence `none` independent of the
prior state. -/
def generateCNAME (settings : Option JsSettings) (cname : Option String) : Option String :=
  match settings with
  | some st =>
    match st.customDomain with
    | some cd =>
      if cd ≠ "" then
        if jsTrim cd ≠ "" then some (jsTrim cd)
        else none
      else none
    | none => none
  | none => none

/-- The claim's description of the domain pointer file: present with the
(trimmed) domain as sole content exactly when `settings.customDomain` is
present and non-empty after trimming; otherwise absent (deleted if left
over from a prior build). -/
def cnameSpec (settings : Option JsSettings) : Option String :=
  match settings with
  | some st =>
    match st.customDomain with
    | some cd => if jsTrim cd ≠ "" then some (jsTrim cd) else none
    | none => none
  | none => none

/-- The JS `||` fallback used in the color template literal:
`colors.primary || '#2563eb'` takes the default when the field is absent
or JS-falsy (the empty string). -/
def jsOr (v : Option String) (dflt : String) : String :=
  match v with
  | some s => if s = "" then dflt else s
  | none => dflt

/-- The claim's "style block defining the three named color variables",
with explicit values for primary/secondary/accent.  The literal text is
the template literal of build.js `generateColorStyles`. -/
def colorBlock (p s a : String) : String :=
  "\n    <style>\n        :root \x7b\n            --primary-color: " ++ p ++
  ";\n            --secondary-color: " ++ s ++
  ";\n            --accent-color: " ++ a ++
  ";\n        \x7d\n    </style>"

/-- build.js `generateColorStyles`: empty fragment unless
`config.settings` and `config.settings.colors` both exist; otherwise the
style-block template literal with `||` fallbacks `#2563eb` / `#1e40af` /
`#3b82f6`. -/
def generateColorStyles (settings : Option JsSettings) : String :=
  match settings with
  | none => ""
  | some st =>
    match st.colors with
    | none => ""
    | some c =>
      "\n    <style>\n        :root \x7b\n            --primary-color: " ++
        jsOr c.primary "#2563eb" ++
      ";\n            --secondary-color: " ++ jsOr c.secondary "#1e40af" ++
      ";\n            --accent-color: " ++ jsOr c.accent "#3b82f6" ++
      ";\n        \x7d\n    </style>"

/-- `personal.location` as the standalone validator reads it. -/
structure JsLocation where
  primary : Option String
  secondary : Option String

/-- `personal.social`: the four link fields the validator recognises. -/
structure JsSocial where
  linkedin : Option String
  github : Option String
  twitter : Option String
  website : Option String

/-- The `personal` section of the config.  Per the data model the fields
are strings when present, so the validator's `typeof x !== 'string'` arms
are unreachable here; a present empty string is JS-falsy and fails the
`!personal.x` requirement checks exactly like an absent field. -/
structure JsPersonal where
  fullName : Option String
  title : Option String
  email : Option String
  phone : Option String
  location : Option JsLocation
  social : Option JsSocial

/-- The check `personal.x && typeof personal.x === 'string'`: present and
non-empty (for string-or-absent fields). -/
def presentStr : Option String → Bool
  | some s => s != ""
  | none => false

/-- A character admitted by the regex class `[^\s@]`. -/
def isEmailChar (c : Char) : Bool :=
  !c.isWhitespace && c != '@'

/-- Existence of a `.` with at least one character on each side. -/
def hasInnerDot (cs : List Char) : Bool :=
  (List.range cs.length).any
    (fun i => decide (0 < i) && decide (i + 1 < cs.length) && cs.getD i ' ' == '.')

/-- validate-config.js `isValidEmail`, i.e. the regex test
`/^[^\s@]+@[^\s@]+\.[^\s@]+$/.test(email)`.  A string matches iff it
splits at its unique `@` into a non-empty `[^\s@]+` local part and a
domain part that is non-empty, `@`-free, whitespace-free and contains a
dot at an inner position — the `[^\s@]+` classes on both sides of the
`\.` admit further dots, so matchability reduces to the existence of such
an inner dot. -/
def isValidEmail (email : String) : Bool :=
  let cs := email.toList
  let lp := cs.takeWhile (fun c => c != '@')
  match cs.drop lp.length with
  | '@' :: dom =>
    !lp.isEmpty && lp.all isEmailChar && !dom.isEmpty && dom.all isEmailChar &&
      hasInnerDot dom
  | _ => false

/-- One `personal.social.<field>` check: a present, truthy link that
fails `isValidUrl` adds a warning. -/
def socialWarn (validUrl : String → Bool) (field : String) (v : Option String) : List String :=
  match v with
  | some u =>
    if u != "" && !validUrl u then
      ["personal.social." ++ field ++ " does not appear to be a valid URL"]
    else []
  | none => []

/-- validate-config.js `validatePersonal`: the `(errors, warnings)` pair
this section contributes, messages in source (push) order.  `isValidUrl`
wraps `new URL(url)`, which is engine-defined, so it is the parameter
`validUrl`.  A present `social` object of this model never hits the
`typeof !== 'object'` error arm. -/
def validatePersonal (validUrl : String → Bool) (personal : Option JsPersonal) :
    List String × List String :=
  match personal with
  | none => (["Missing required section: personal"], [])
  | some p =>
    let fullNameErr :=
      if presentStr p.fullName then []
      else ["personal.fullName is required and must be a string"]
    let titleErr :=
      if presentStr p.title then []
      else ["personal.title is required and must be a string"]
    let emailErr :=
      if presentStr p.email then []
      else ["personal.email is required and must be a string"]
    let emailWarn :=
      match p.email with
      | some e =>
        if e != "" && !isValidEmail e then
          ["personal.email does not appear to be a valid email address"]
        else []
      | none => []
    let phoneWarn :=
      if presentStr p.phone then []
      else ["personal.phone is missing or not a string"]
    let locationErr :=
      match p.location with
      | none => ["personal.location is required and must be an object"]
      | some loc =>
        if presentStr loc.primary then []
        else ["personal.location.primary is required and must be a string"]
    let socialWarns :=
      match p.social with
      | some so =>
        socialWarn validUrl "linkedin" so.linkedin ++
        socialWarn validUrl "github" so.github ++
        socialWarn validUrl "twitter" so.twitter ++
        socialWarn validUrl "website" so.website
      | none => []
    (fullNameErr ++ titleErr ++ emailErr ++ locationErr,
     emailWarn ++ phoneWarn ++ socialWarns)

/-- Outcome of validate-config.js `displayResults`: clean pass (exit 0,
"No errors or warnings found"), pass with a visible warning caveat
(exit 0), or fail (exit 1). -/
inductive ValidationOutcome where
  | cleanPass
  | passWithWarnings
  | fail
deriving DecidableEq, Repr

/-- validate-config.js `displayResults`, branch structure as in source:
first the both-empty clean exit, then the error display with `exit(1)`
when any error exists, else the warnings-only `exit(0)`. -/
def displayResults (errors warnings : List String) : ValidationOutcome :=
  if errors.length = 0 ∧ warnings.length = 0 then .cleanPass
  else if errors.length > 0 then .fail
  else .passWithWarnings

/-- The claim's exit policy: any error → fail; only warnings → pass with
caveat; neither → clean pass. -/
def exitPolicySpec (errors warnings : List String) : ValidationOutcome :=
  if errors.isEmpty then
    (if warnings.isEmpty then .cleanPass else .passWithWarnings)
  else .fail

/-- A personal section that is well-formed except that the email field is
absent. -/
def personalNoEmail : JsPersonal :=
  ⟨some "Jane Developer", some "Software Engineer", none, some "555-0100",
    some ⟨some "Berlin, Germany", none⟩, none⟩

/-- The same personal section with `email = "not-an-email"`. -/
def personalBadEmail : JsPersonal :=
  ⟨some "Jane Developer", some "Software Engineer", some "not-an-email", some "555-0100",
    some ⟨some "Berlin, Germany", none⟩, none⟩

/-- An in-memory filesystem entry: a file with its content, or a
directory listing its named entries in enumeration order. -/
inductive FsTree where
  | file (content : String)
  | dir (entries : List (String × FsTree))

/-- Path lookup of one name inside a directory listing. -/
def lookupAssoc (k : String) : List (String × FsTree) → Option FsTree
  | [] => none
  | (k', v) :: rest => if k' = k then some v else lookupAssoc k rest

/-- Creating or overwriting the entry `k` of a directory listing: replace
an existing entry in place, otherwise append. -/
def updateAssoc (k : String) (v : FsTree) :
    List (String × FsTree) → List (String × FsTree)
  | [] => [(k, v)]
  | (k', v') :: rest =>
    if k' = k then (k, v) :: rest else (k', v') :: updateAssoc k v rest

/-- Whether a directory listing contains the name `k`. -/
def containsKey (k : String) : List (String × FsTree) → Bool
  | [] => false
  | (k', _) :: rest => k' == k || containsKey k rest

/-- No duplicate names in a directory listing. -/
def keysNodup : List (String × FsTree) → Bool
  | [] => true
  | (k, _) :: rest => !containsKey k rest && keysNodup rest

mutual
/-- One source entry of build.js `copyDirectory` landing at a destination
slot (`none` = nothing at that destination path yet).
* A file entry is `fs.copyFileSync(srcPath, destPath)`: it overwrites a
  plain file but throws (`EISDIR`) when the destination is a directory.
* A directory entry is the recursive `copyDirectory(srcPath, destPath)`
  call with an existing source: `mkdirSync(destPath, {recursive: true})`
  when the destination path does not exist (an existing plain file stays,
  and any write beneath it then throws `ENOTDIR` — see `copyEntries`),
  followed by the entry loop. -/
def copyT : FsTree → Option FsTree → Except Unit FsTree
  | .file c, de =>
    match de with
    | some (.dir _) => .error ()
    | _ => .ok (.file c)
  | .dir es, de => copyEntries es (de.getD (.dir []))

/-- The `for (const entry of entries)` loop of `copyDirectory`, threading
the destination tree through the per-entry copies. -/
def copyEntries : List (String × FsTree) → FsTree → Except Unit FsTree
  | [], d => .ok d
  | _ :: _, .file _ => .error ()
  | (name, child) :: rest, .dir ds =>
    match copyT child (lookupAssoc name ds) with
    | .error e => .error e
    | .ok sub => copyEntries rest (.dir (updateAssoc name sub ds))
end

mutual
/-- Well-formed directory tree: at every level the entry names are
pairwise distinct (as guaranteed for a tree read from a real
filesystem). -/
def wfTree : FsTree → Bool
  | .file _ => true
  | .dir es => keysNodup es && wfEntries es

def wfEntries : List (String × FsTree) → Bool
  | [] => true
  | (_, t) :: rest => wfTree t && wfEntries rest
end

/-- build.js `copyDirectory(src, dest)` as a filesystem-state function:
the arguments are the trees currently at the source and destination paths
(`none` = that path does not exist), the result is the new destination
tree paired with whether the missing-source warning was emitted, and
`.error` models a thrown filesystem error.  In source order: (1)
`if (!fs.existsSync(dest)) fs.mkdirSync(dest, {recursive: true})` — the
destination directory is created before anything else; (2)
`if (!fs.existsSync(src))` log a warning and return without failing; (3)
`fs.readdirSync(src)` — throws when `src` is not a directory; (4) the
entry loop. -/
def copyDirectory (src dest : Option FsTree) : Except Unit (FsTree × Bool) :=
  let dest0 := dest.getD (.dir [])
  match src with
  | none => .ok (dest0, true)
  | some (.file _) => .error ()
  | some (.dir es) =>
    match copyEntries es dest0 with
    | .error e => .error e
    | .ok d => .ok (d, false)

/-- Steps 9–11 of the build: copy `src/css`, `src/js`, `src/images` to
`css`, `js`, `images` under the output root, threading the output
directory listing. -/
def runAssetPhase (srcCss srcJs srcImages : Option FsTree)
    (dist : List (String × FsTree)) : Except Unit (List (String × FsTree)) := do
  let css ← copyDirectory srcCss (lookupAssoc "css" dist)
  let dist1 := updateAssoc "css" css.1 dist
  let js ← copyDirectory srcJs (lookupAssoc "js" dist1)
  let dist2 := updateAssoc "js" js.1 dist1
  let images ← copyDirectory srcImages (lookupAssoc "images" dist2)
  pure (updateAssoc "images" images.1 dist2)

/-- A sample asset tree with a nested subdirectory. -/
def sampleAssets : List (String × FsTree) :=
  [("styles.css", .file "body \x7b margin: 0; \x7d"),
   ("img", .dir [("profile.jpg", .file "jpeg-bytes")])]

lemma strFoldl_shift (m : List String) :
    ∀ x y : String,
      m.foldl (fun acc s => acc ++ s) (x ++ y) = x ++ m.foldl (fun acc s => acc ++ s) y := by
  induction m with
  | nil => intro x y; simp
  | cons b bt ih =>
    intro x y
    simp only [List.foldl_cons, String.append_assoc]
    exact ih x (y ++ b)

lemma strJoin_cons (s : String) (m : List String) :
    String.join (s :: m) = s ++ String.join m := by
  show (s :: m).foldl (fun r t => r ++ t) "" = s ++ m.foldl (fun r t => r ++ t) ""
  simp only [List.foldl_cons]
  have h0 : ("" : String) ++ s = s ++ "" := by simp
  rw [h0, strFoldl_shift]

lemma foldl_append_eq_join (l : List β) (g : β → String) :
    ∀ r : String, l.foldl (fun acc i => acc ++ g i) r = r ++ String.join (l.map g) := by
  induction l with
  | nil => intro r; simp [String.join]
  | cons a t ih =>
    intro r
    simp only [List.foldl_cons, List.map_cons, strJoin_cons]
    rw [ih (r ++ g a), String.append_assoc]

lemma enumFrom_map_eq_range_map [Inhabited α] :
    ∀ (t : List α) (k : Nat) (g : Nat → α → String),
      (List.enumFrom k t).map (fun p => g p.1 p.2) =
        (List.range t.length).map (fun i => g (k + i) (t.getD i default)) := by
  intro t
  induction t with
  | nil => intro k g; simp
  | cons a t ih =>
    intro k g
    show (g k a) :: (List.enumFrom (k + 1) t).map (fun p => g p.1 p.2) = _
    rw [List.length_cons, List.range_succ_eq_map, List.map_cons, List.map_map]
    rw [ih (k + 1) g]
    simp only [Nat.add_zero, List.getD_cons_zero, Function.comp]
    congr 1
    apply List.map_congr_left
    intro i _
    simp only [Function.comp, Nat.succ_eq_add_one, List.getD_cons_succ]
    congr 1
    omega

lemma range_map_getD_eq_enum_map [Inhabited α] (ctx : List α) (g : Nat → α → String) :
    (List.range ctx.length).map (fun i => g i (ctx.getD i default)) =
      ctx.enum.map (fun p => g p.1 p.2) := by
  show _ = (List.enumFrom 0 ctx).map (fun p => g p.1 p.2)
  rw [enumFrom_map_eq_range_map ctx 0 g]
  simp

lemma length_of_isYYYYMM {s : String} (h : isYYYYMM s = true) : s.toList.length = 7 := by
  simp only [isYYYYMM, Bool.and_eq_true, beq_iff_eq] at h
  exact h.1.1.1

lemma length_of_isYYYYMMDD {s : String} (h : isYYYYMMDD s = true) : s.toList.length = 10 := by
  simp only [isYYYYMMDD, Bool.and_eq_true, beq_iff_eq] at h
  exact h.1.1.1.1.1

lemma isYYYY_false_of_isYYYYMM {s : String} (h : isYYYYMM s = true) : isYYYY s = false := by
  have hlen : s.length = 7 := length_of_isYYYYMM h
  simp [isYYYY, hlen]

lemma isYYYY_false_of_isYYYYMMDD {s : String} (h : isYYYYMMDD s = true) : isYYYY s = false := by
  have hlen : s.length = 10 := length_of_isYYYYMMDD h
  simp [isYYYY, hlen]

lemma isYYYYMM_false_of_isYYYYMMDD {s : String} (h : isYYYYMMDD s = true) :
    isYYYYMM s = false := by
  have hlen : s.length = 10 := length_of_isYYYYMMDD h
  simp [isYYYYMM, hlen]

lemma not_special_of_isYYYYMM {s : String} (h : isYYYYMM s = true) :
    ¬(s = "" ∨ s = "Present") := by
  rintro (rfl | rfl) <;> exact absurd h (by decide)

lemma not_special_of_isYYYYMMDD {s : String} (h : isYYYYMMDD s = true) :
    ¬(s = "" ∨ s = "Present") := by
  rintro (rfl | rfl) <;> exact absurd h (by decide)

lemma not_special_of_isYYYY {s : String} (h : isYYYY s = true) :
    ¬(s = "" ∨ s = "Present") := by
  rintro (rfl | rfl) <;> exact absurd h (by decide)

/-- C1 counterexample: `"2020-13-01"` matches the `YYYY-MM-DD` layout but
is not a calendar date; the formatter yields the string `"undefined NaN"`
— neither `"{MonthAbbrev} 2020"` for any entry of the month table nor the
input unchanged — refuting the claim's unconditional `YYYY-MM-DD` rule and
its catch-all "strings that fail parsing are returned unchanged". -/
theorem formatDate_invalid_month_counterexample :
    formatDate (fun _ => none) (some "2020-13-01") = "undefined NaN" ∧
    (months.map (fun mo => mo ++ " 2020")).contains "undefined NaN" = false ∧
    "undefined NaN" ≠ "2020-13-01" := by
  refine ⟨by decide, by decide, by decide⟩

/-- C1 (amended): the date formatter is total and never throws.  Missing,
empty, or `"Present"` input gives `"Present"`; a 4-digit year is returned
unchanged; `YYYY-MM` with month 1..12 renders `"{MonthAbbrev} {YYYY}"`
from the fixed table while an out-of-range month falls through to generic
parsing; `YYYY-MM-DD` drops the day and renders `"{MonthAbbrev} {YYYY}"`
when it is a valid calendar date, and yields the string `"undefined NaN"`
(still no exception) when it is not; any other string renders from a
successful generic parse and is returned unchanged when generic parsing
fails.  In particular `"2020"` ↦ `"2020"`, `"2020-01"` ↦ `"Jan 2020"`,
`"2020-01-15"` ↦ `"Jan 2020"`, `"not-a-date"` ↦ `"not-a-date"`. -/
theorem formatDate_amended_spec (gp : String → Option (Fin 12 × Int)) :
    (formatDate gp none = "Present" ∧ formatDate gp (some "") = "Present" ∧
      formatDate gp (some "Present") = "Present") ∧
    (∀ s, isYYYY s = true → formatDate gp (some s) = s) ∧
    (∀ s, isYYYYMM s = true → 1 ≤ digitsToNat (s.toList.drop 5) →
      digitsToNat (s.toList.drop 5) ≤ 12 →
      formatDate gp (some s) =
        months.getD (digitsToNat (s.toList.drop 5) - 1) "undefined" ++ " " ++
          String.mk (s.toList.take 4)) ∧
    (∀ s, isYYYYMM s = true →
      ¬(1 ≤ digitsToNat (s.toList.drop 5) ∧ digitsToNat (s.toList.drop 5) ≤ 12) →
      formatDate gp (some s) = genericRender gp s) ∧
    (∀ s, isYYYYMMDD s = true →
      isValidDate (digitsToNat (s.toList.take 4)) (digitsToNat ((s.toList.drop 5).take 2))
        (digitsToNat (s.toList.drop 8)) = true →
      formatDate gp (some s) =
        months.getD (digitsToNat ((s.toList.drop 5).take 2) - 1) "undefined" ++ " " ++
          toString (digitsToNat (s.toList.take 4))) ∧
    (∀ s, isYYYYMMDD s = true →
      isValidDate (digitsToNat (s.toList.take 4)) (digitsToNat ((s.toList.drop 5).take 2))
        (digitsToNat (s.toList.drop 8)) = false →
      formatDate gp (some s) = "undefined NaN") ∧
    (∀ s, anyPattern s = false → formatDate gp (some s) = genericRender gp s) ∧
    (∀ s, gp s = none → genericRender gp s = s) ∧
    (formatDate gp (some "2020") = "2020" ∧
      formatDate gp (some "2020-01") = "Jan 2020" ∧
      formatDate gp (some "2020-01-15") = "Jan 2020" ∧
      (gp "not-a-date" = none → formatDate gp (some "not-a-date") = "not-a-date")) := by
  refine ⟨⟨rfl, rfl, rfl⟩, ?_, ?_, ?_, ?_, ?_, ?_, ?_, rfl, rfl, rfl, ?_⟩
  · intro s h
    simp only [formatDate, if_neg (not_special_of_isYYYY h), h, if_true]
  · intro s h h1 h12
    simp only [formatDate, if_neg (not_special_of_isYYYYMM h), isYYYY_false_of_isYYYYMM h,
      Bool.false_eq_true, if_false, h, if_true, if_pos (And.intro h1 h12)]
  · intro s h hout
    simp only [formatDate, if_neg (not_special_of_isYYYYMM h), isYYYY_false_of_isYYYYMM h,
      Bool.false_eq_true, if_false, h, if_true, if_neg hout]
  · intro s h hval
    simp only [formatDate, if_neg (not_special_of_isYYYYMMDD h), isYYYY_false_of_isYYYYMMDD h,
      isYYYYMM_false_of_isYYYYMMDD h, Bool.false_eq_true, if_false, h, if_true, hval]
  · intro s h hval
    simp only [formatDate, if_neg (not_special_of_isYYYYMMDD h), isYYYY_false_of_isYYYYMMDD h,
      isYYYYMM_false_of_isYYYYMMDD h, Bool.false_eq_true, if_false, h, if_true, hval]
  · intro s h
    simp only [anyPattern, Bool.or_eq_false_iff, beq_eq_false_iff_ne, ne_eq] at h
    obtain ⟨⟨⟨⟨hne, hnp⟩, hY⟩, hMM⟩, hMMDD⟩ := h
    simp only [formatDate, if_neg (show ¬(s = "" ∨ s = "Present") by rintro (rfl | rfl) <;> simp_all),
      hY, hMM, hMMDD, Bool.false_eq_true, if_false]
  · intro s h
    simp [genericRender, h]
  · intro h
    have hp : anyPattern "not-a-date" = false := by decide
    simp only [formatDate, if_neg (by decide : ¬("not-a-date" = "" ∨ "not-a-date" = "Present")),
      (by decide : isYYYY "not-a-date" = false),
      (by decide : isYYYYMM "not-a-date" = false),
      (by decide : isYYYYMMDD "not-a-date" = false),
      Bool.false_eq_true, if_false]
    simp [genericRender, h]

/-- Witness for `formatDate_amended_spec` at concrete inputs: a parser
that fails on everything, a plain year, an out-of-range `YYYY-MM`, a valid
and an invalid `YYYY-MM-DD`, and an unparseable string. -/
theorem formatDate_amended_spec_witness :
    formatDate (fun _ => none) (some "1999") = "1999" ∧
    formatDate (fun _ => none) (some "2020-99") = "2020-99" ∧
    formatDate (fun _ => none) (some "2021-02-28") = "Feb 2021" ∧
    formatDate (fun _ => none) (some "2021-02-29") = "undefined NaN" ∧
    formatDate (fun _ => none) (some "not-a-date") = "not-a-date" := by
  have h := formatDate_amended_spec (fun _ => none)
  refine ⟨h.2.1 "1999" (by decide), ?_, ?_, ?_, ?_⟩
  · rw [h.2.2.2.1 "2020-99" (by decide) (by decide)]
    rfl
  · rw [h.2.2.2.2.1 "2021-02-28" (by decide) (by decide)]
    rfl
  · exact h.2.2.2.2.2.1 "2021-02-29" (by decide) (by decide)
  · exact h.2.2.2.2.2.2.2.2.2.2.2 rfl

/-- C4 (the code, at the failing input): a change arrives at time 0 while
a build is in progress; its debounce timer expires at time 500, still
during the build, and the trigger is silently discarded — the pending
timer is consumed without starting a rebuild, and after the running build
completes no follow-up build exists (build count still 1, nothing
pending).  This contradicts the claim (and the spec's stated intent) that
such a change must not be dropped. -/
theorem watch_drops_change_during_build :
    watchStep ⟨some 500, true, 1⟩ (.expire 500) = ⟨none, true, 1⟩ ∧
    runWatch ⟨none, true, 1⟩ [.change 0, .expire 500, .complete] = ⟨none, false, 1⟩ :=
  ⟨rfl, rfl⟩

/-- C5: every change event (re)starts the fixed-delay timer, and two
change events less than `DEBOUNCE_DELAY` apart — so that the second
arrives before the first timer can fire — produce exactly one rebuild,
while (for contrast) two changes at least `DEBOUNCE_DELAY` apart produce
two. -/
theorem debounce_coalesces_rapid_changes (t1 t2 : Nat) (h : t1 ≤ t2) :
    (∀ (s : WatchState) (t : Nat),
      (watchStep s (.change t)).deadline = some (t + DEBOUNCE_DELAY)) ∧
    (t2 < t1 + DEBOUNCE_DELAY →
      (runWatch ⟨none, false, 0⟩
        [.change t1, .change t2, .expire (t1 + DEBOUNCE_DELAY),
         .expire (t2 + DEBOUNCE_DELAY), .complete]).builds = 1) ∧
    (t1 + DEBOUNCE_DELAY ≤ t2 →
      (runWatch ⟨none, false, 0⟩
        [.change t1, .expire (t1 + DEBOUNCE_DELAY), .complete,
         .change t2, .expire (t2 + DEBOUNCE_DELAY), .complete]).builds = 2) := by
  refine ⟨fun s t => rfl, ?_, ?_⟩
  · intro _
    by_cases heq : t1 = t2
    · subst heq
      simp [runWatch, watchStep]
    · have hne : t2 + DEBOUNCE_DELAY ≠ t1 + DEBOUNCE_DELAY := by omega
      simp [runWatch, watchStep, hne]
  · intro _
    simp [runWatch, watchStep]

/-- Witness for `debounce_coalesces_rapid_changes`: changes at 0 ms and
100 ms coalesce into one rebuild; changes at 0 ms and 600 ms yield two. -/
theorem debounce_coalesces_rapid_changes_witness :
    (runWatch ⟨none, false, 0⟩
      [.change 0, .change 100, .expire 500, .expire 600, .complete]).builds = 1 ∧
    (runWatch ⟨none, false, 0⟩
      [.change 0, .expire 500, .complete, .change 600, .expire 1100, .complete]).builds = 2 := by
  constructor
  · exact (debounce_coalesces_rapid_changes 0 100 (by decide)).2.1 (by decide)
  · exact (debounce_coalesces_rapid_changes 0 600 (by decide)).2.2 (by decide)

/-- C6: the pointer-file generator agrees, for every prior file state,
with the claim's description; in particular `customDomain =
"example.com"` produces a file containing exactly `example.com`, and a
config without a custom domain leaves no pointer file behind. -/
theorem generateCNAME_matches_spec :
    (∀ settings cname, generateCNAME settings cname = cnameSpec settings) ∧
    (∀ cname colors,
      generateCNAME (some ⟨some "example.com", colors⟩) cname = some "example.com") ∧
    (∀ cname colors, generateCNAME (some ⟨none, colors⟩) cname = none) := by
  refine ⟨?_, fun cname colors => rfl, fun cname colors => rfl⟩
  intro settings cname
  match settings with
  | none => rfl
  | some ⟨none, _⟩ => rfl
  | some ⟨some cd, _⟩ =>
    by_cases hcd : cd = ""
    · subst hcd
      rfl
    · simp [generateCNAME, cnameSpec, hcd]

/-- C7 counterexample: a `primary` color that is configured (present) as
the empty string is not used; the generator substitutes the built-in
default `#2563eb`, so "takes the configured value when present" fails at
this input (the output block differs from the block that carries the
configured value). -/
theorem generateColorStyles_empty_string_counterexample :
    generateColorStyles (some ⟨none, some ⟨some "", none, none⟩⟩) =
      colorBlock "#2563eb" "#1e40af" "#3b82f6" ∧
    colorBlock "#2563eb" "#1e40af" "#3b82f6" ≠ colorBlock "" "#1e40af" "#3b82f6" :=
  ⟨rfl, by decide⟩

/-- C7 (amended): the color-style generator is a pure function of
`settings.colors`: with no settings or no `colors` key it yields the empty
fragment; otherwise it yields the style block defining the three variables
primary/secondary/accent, where each variable takes the configured value
when that value is present and non-empty (e.g. `#ff6600`), and falls back
to its fixed built-in hex default when the field is absent — or, as the
counterexample forces, when it is the (JS-falsy) empty string. -/
theorem generateColorStyles_amended_spec :
    (generateColorStyles none = "") ∧
    (∀ cd, generateColorStyles (some ⟨cd, none⟩) = "") ∧
    (∀ cd c, generateColorStyles (some ⟨cd, some c⟩) =
      colorBlock (jsOr c.primary "#2563eb") (jsOr c.secondary "#1e40af")
        (jsOr c.accent "#3b82f6")) ∧
    (∀ s d, s ≠ "" → jsOr (some s) d = s) ∧
    (∀ d, jsOr none d = d) ∧
    (generateColorStyles (some ⟨none, some ⟨some "#ff6600", none, none⟩⟩) =
      colorBlock "#ff6600" "#1e40af" "#3b82f6") := by
  refine ⟨rfl, fun cd => rfl, fun cd c => rfl, ?_, fun d => rfl, rfl⟩
  intro s d hs
  simp [jsOr, hs]

/-- Witness for `generateColorStyles_amended_spec`: the configured value
`#ff6600` is taken verbatim. -/
theorem generateColorStyles_amended_spec_witness :
    jsOr (some "#ff6600") "#2563eb" = "#ff6600" :=
  generateColorStyles_amended_spec.2.2.2.1 "#ff6600" "#2563eb" (by decide)

/-- C8: the validator keeps independent error and warning lists and
follows the exit policy (errors → fail, only warnings → pass with caveat,
neither → clean pass).  A config missing `personal.email` gets exactly the
error naming personal.email (and fails); a present but malformed email
gets exactly a warning, not an error (and passes with caveat). -/
theorem validator_email_and_exit_policy :
    (∀ errors warnings, displayResults errors warnings = exitPolicySpec errors warnings) ∧
    (∀ validUrl, validatePersonal validUrl (some personalNoEmail) =
      (["personal.email is required and must be a string"], [])) ∧
    (∀ validUrl, validatePersonal validUrl (some personalBadEmail) =
      ([], ["personal.email does not appear to be a valid email address"])) ∧
    (∀ validUrl,
      displayResults (validatePersonal validUrl (some personalNoEmail)).1
        (validatePersonal validUrl (some personalNoEmail)).2 = .fail) ∧
    (∀ validUrl,
      displayResults (validatePersonal validUrl (some personalBadEmail)).1
        (validatePersonal validUrl (some personalBadEmail)).2 = .passWithWarnings) := by
  refine ⟨?_, fun validUrl => rfl, fun validUrl => rfl, fun validUrl => rfl,
    fun validUrl => rfl⟩
  intro errors warnings
  cases errors <;> cases warnings <;> simp [displayResults, exitPolicySpec]

lemma lookupAssoc_eq_none {k : String} :
    ∀ {ds : List (String × FsTree)}, containsKey k ds = false → lookupAssoc k ds = none := by
  intro ds
  induction ds with
  | nil => intro _; rfl
  | cons p rest ih =>
    obtain ⟨k', v⟩ := p
    intro h
    simp only [containsKey, Bool.or_eq_false_iff, beq_eq_false_iff_ne, ne_eq] at h
    simp only [lookupAssoc, if_neg h.1]
    exact ih h.2

lemma updateAssoc_append {k : String} {v : FsTree} :
    ∀ {ds : List (String × FsTree)}, containsKey k ds = false →
      updateAssoc k v ds = ds ++ [(k, v)] := by
  intro ds
  induction ds with
  | nil => intro _; rfl
  | cons p rest ih =>
    obtain ⟨k', v'⟩ := p
    intro h
    simp only [containsKey, Bool.or_eq_false_iff, beq_eq_false_iff_ne, ne_eq] at h
    simp only [updateAssoc, if_neg h.1, List.cons_append]
    rw [ih h.2]

lemma updateAssoc_self {k : String} {v : FsTree} :
    ∀ {ds : List (String × FsTree)}, lookupAssoc k ds = some v →
      updateAssoc k v ds = ds := by
  intro ds
  induction ds with
  | nil => intro h; exact absurd h (by simp [lookupAssoc])
  | cons p rest ih =>
    obtain ⟨k', v'⟩ := p
    intro h
    by_cases hk : k' = k
    · subst hk
      have hv : v' = v := by simpa [lookupAssoc] using h
      subst hv
      simp [updateAssoc]
    · simp only [lookupAssoc, if_neg hk] at h
      simp only [updateAssoc, if_neg hk]
      rw [ih h]

lemma containsKey_of_mem {k : String} {v : FsTree} :
    ∀ {ds : List (String × FsTree)}, (k, v) ∈ ds → containsKey k ds = true := by
  intro ds
  induction ds with
  | nil => intro h; simp at h
  | cons p rest ih =>
    obtain ⟨k', v'⟩ := p
    intro h
    rcases List.mem_cons.mp h with heq | hmem
    · injection heq with h1 h2
      simp [containsKey, h1]
    · simp [containsKey, ih hmem]

lemma lookupAssoc_of_mem_nodup {k : String} {v : FsTree} :
    ∀ {ds : List (String × FsTree)}, keysNodup ds = true → (k, v) ∈ ds →
      lookupAssoc k ds = some v := by
  intro ds
  induction ds with
  | nil => intro _ h; simp at h
  | cons p rest ih =>
    obtain ⟨k', v'⟩ := p
    intro hnd h
    simp only [keysNodup, Bool.and_eq_true, Bool.not_eq_true'] at hnd
    rcases List.mem_cons.mp h with heq | hmem
    · injection heq with h1 h2
      subst h1
      subst h2
      simp [lookupAssoc]
    · have hk : k' ≠ k := by
        intro hkk
        subst hkk
        have hck := containsKey_of_mem hmem
        rw [hnd.1] at hck
        exact Bool.noConfusion hck
      simp only [lookupAssoc, if_neg hk]
      exact ih hnd.2 hmem

lemma containsKey_append {k : String} (a b : List (String × FsTree)) :
    containsKey k (a ++ b) = (containsKey k a || containsKey k b) := by
  induction a with
  | nil => simp [containsKey]
  | cons p rest ih =>
    obtain ⟨k', v'⟩ := p
    simp [containsKey, ih, Bool.or_assoc]

lemma wfEntries_mem {v : FsTree} :
    ∀ {es : List (String × FsTree)} {k : String}, wfEntries es = true → (k, v) ∈ es →
      wfTree v = true := by
  intro es
  induction es with
  | nil => intro k _ h; simp at h
  | cons p rest ih =>
    obtain ⟨k', v'⟩ := p
    intro k hwf h
    rw [wfEntries] at hwf
    simp only [Bool.and_eq_true] at hwf
    rcases List.mem_cons.mp h with heq | hmem
    · have hv : v' = v := by injection heq with h1 h2; exact h2.symm
      exact hv ▸ hwf.1
    · exact ih hwf.2 hmem

lemma sizeOf_snd_lt_of_mem {p : String × FsTree} :
    ∀ {es : List (String × FsTree)}, p ∈ es → sizeOf p.2 < sizeOf es := by
  intro es
  induction es with
  | nil => intro h; simp at h
  | cons q rest ih =>
    intro h
    rcases List.mem_cons.mp h with heq | hmem
    · subst heq
      obtain ⟨k, v⟩ := p
      simp only [Prod.mk.sizeOf_spec]
      simp_arith
    · have := ih hmem
      have : sizeOf rest < sizeOf (q :: rest) := by simp_arith
      omega

lemma lookupAssoc_updateAssoc_self (k : String) (v : FsTree) :
    ∀ ds, lookupAssoc k (updateAssoc k v ds) = some v := by
  intro ds
  induction ds with
  | nil => simp [updateAssoc, lookupAssoc]
  | cons p rest ih =>
    obtain ⟨k', v'⟩ := p
    by_cases hk : k' = k
    · subst hk
      simp [updateAssoc, lookupAssoc]
    · simp [updateAssoc, lookupAssoc, hk, ih]

lemma lookupAssoc_updateAssoc_ne {k k' : String} (hne : k' ≠ k) (v : FsTree) :
    ∀ ds, lookupAssoc k (updateAssoc k' v ds) = lookupAssoc k ds := by
  intro ds
  induction ds with
  | nil => simp [updateAssoc, lookupAssoc, hne]
  | cons p rest ih =>
    obtain ⟨k'', v''⟩ := p
    by_cases hk : k'' = k'
    · subst hk
      have : k'' ≠ k := hne
      simp [updateAssoc, lookupAssoc, this]
    · by_cases hk2 : k'' = k
      · subst hk2
        simp [updateAssoc, lookupAssoc, hk]
      · simp [updateAssoc, lookupAssoc, hk, hk2, ih]

lemma copyEntries_fresh :
    ∀ (es acc : List (String × FsTree)), keysNodup es = true →
      (∀ p ∈ es, containsKey p.1 acc = false) →
      (∀ p ∈ es, copyT p.2 none = .ok p.2) →
      copyEntries es (.dir acc) = .ok (.dir (acc ++ es)) := by
  intro es
  induction es with
  | nil =>
    intro acc _ _ _
    simp [copyEntries]
  | cons p rest ih =>
    obtain ⟨k, c⟩ := p
    intro acc hnd hdisj hcopy
    simp only [keysNodup, Bool.and_eq_true, Bool.not_eq_true'] at hnd
    have hd1 : containsKey k acc = false := hdisj (k, c) (List.mem_cons_self _ _)
    have hc1 : copyT c none = Except.ok c := hcopy (k, c) (List.mem_cons_self _ _)
    simp only [copyEntries]
    rw [lookupAssoc_eq_none hd1, hc1]
    show copyEntries rest (FsTree.dir (updateAssoc k c acc)) = _
    rw [updateAssoc_append hd1]
    rw [ih (acc ++ [(k, c)]) hnd.2 ?hdisj (fun p hp => hcopy p (List.mem_cons_of_mem _ hp))]
    · simp
    case hdisj =>
      intro p hp
      obtain ⟨pk, pv⟩ := p
      rw [containsKey_append]
      have h1 : containsKey pk acc = false := hdisj (pk, pv) (List.mem_cons_of_mem _ hp)
      have h2 : containsKey pk [(k, c)] = false := by
        have hkp : k ≠ pk := by
          intro hkk
          subst hkk
          have := containsKey_of_mem hp
          rw [hnd.1] at this
          exact Bool.noConfusion this
        simp [containsKey, hkp]
      rw [h1, h2]
      rfl

lemma copyEntries_self :
    ∀ (es ds : List (String × FsTree)),
      (∀ p ∈ es, lookupAssoc p.1 ds = some p.2) →
      (∀ p ∈ es, copyT p.2 (some p.2) = .ok p.2) →
      copyEntries es (.dir ds) = .ok (.dir ds) := by
  intro es
  induction es with
  | nil =>
    intro ds _ _
    simp [copyEntries]
  | cons p rest ih =>
    obtain ⟨k, c⟩ := p
    intro ds hlk hcp
    have hl1 : lookupAssoc k ds = some c := hlk (k, c) (List.mem_cons_self _ _)
    have hc1 : copyT c (some c) = Except.ok c := hcp (k, c) (List.mem_cons_self _ _)
    simp only [copyEntries]
    rw [hl1, hc1]
    show copyEntries rest (FsTree.dir (updateAssoc k c ds)) = _
    rw [updateAssoc_self hl1]
    exact ih ds (fun p hp => hlk p (List.mem_cons_of_mem _ hp))
      (fun p hp => hcp p (List.mem_cons_of_mem _ hp))

/-- Copying a well-formed tree to an empty destination reproduces it
exactly, and copying it onto an identical destination leaves the
destination unchanged. -/
lemma copy_roundtrip :
    ∀ (n : Nat) (t : FsTree), sizeOf t ≤ n → wfTree t = true →
      copyT t none = .ok t ∧ copyT t (some t) = .ok t := by
  intro n
  induction n with
  | zero =>
    intro t hle _
    exact absurd hle (by cases t <;> simp_arith)
  | succ n ih =>
    intro t hle hwf
    cases t with
    | file c => exact ⟨by simp [copyT], by simp [copyT]⟩
    | dir es =>
      rw [wfTree] at hwf
      simp only [Bool.and_eq_true] at hwf
      have hchild : ∀ p ∈ es, copyT p.2 none = .ok p.2 ∧ copyT p.2 (some p.2) = .ok p.2 := by
        intro p hp
        apply ih
        · have h1 := sizeOf_snd_lt_of_mem hp
          have h2 : sizeOf es < sizeOf (FsTree.dir es) := by simp_arith
          omega
        · exact wfEntries_mem hwf.2 hp
      constructor
      · simp only [copyT, Option.getD_none]
        rw [copyEntries_fresh es [] hwf.1 (fun p _ => rfl) (fun p hp => (hchild p hp).1)]
        simp
      · simp only [copyT, Option.getD_some]
        exact copyEntries_self es es
          (fun p hp => by
            obtain ⟨pk, pv⟩ := p
            exact lookupAssoc_of_mem_nodup hwf.1 hp)
          (fun p hp => (hchild p hp).2)

/-- C9: for every well-formed source tree, the recursive copy reproduces
the same nested directory structure and file contents at a fresh
destination; re-running with the source unchanged produces an identical
destination; and a missing source root yields a non-fatal skip (`.ok`
with the warning flag) rather than a failure. -/
theorem copyDirectory_reproduces_and_idempotent (es : List (String × FsTree))
    (hwf : wfTree (.dir es) = true) :
    copyDirectory (some (.dir es)) none = .ok (.dir es, false) ∧
    copyDirectory (some (.dir es)) (some (.dir es)) = .ok (.dir es, false) ∧
    (∀ dest, copyDirectory none dest = .ok (dest.getD (.dir []), true)) := by
  have h := copy_roundtrip (sizeOf (FsTree.dir es)) (FsTree.dir es) (Nat.le_refl _) hwf
  have h1 : copyEntries es (.dir []) = .ok (.dir es) := by
    have := h.1
    simpa only [copyT, Option.getD_none] using this
  have h2 : copyEntries es (.dir es) = .ok (.dir es) := by
    have := h.2
    simpa only [copyT, Option.getD_some] using this
  refine ⟨?_, ?_, fun dest => by cases dest <;> rfl⟩
  · simp [copyDirectory, h1]
  · simp [copyDirectory, h2]

/-- Witness for `copyDirectory_reproduces_and_idempotent` on
`sampleAssets`. -/
theorem copyDirectory_reproduces_witness :
    wfTree (.dir sampleAssets) = true ∧
    copyDirectory (some (.dir sampleAssets)) none = .ok (.dir sampleAssets, false) ∧
    copyDirectory (some (.dir sampleAssets)) (some (.dir sampleAssets)) =
      .ok (.dir sampleAssets, false) ∧
    copyDirectory none (some (.dir sampleAssets)) = .ok (.dir sampleAssets, true) := by
  have hwf : wfTree (.dir sampleAssets) = true := by
    simp [sampleAssets, wfTree, wfEntries, keysNodup, containsKey]
  have h := copyDirectory_reproduces_and_idempotent sampleAssets hwf
  exact ⟨hwf, h.1, h.2.1, by simpa using h.2.2 (some (.dir sampleAssets))⟩

/-- C10: `copyDirectory` creates the destination directory before it
checks that the source exists, so a call with a missing source still
leaves an (empty) destination directory behind; consequently, after the
asset phase of any successful build, the `css`, `js` and `images`
directories all exist under the output root — in particular, with all
three asset sources absent, as empty directories. -/
theorem copyDirectory_mkdir_before_source_check :
    (∀ dest, copyDirectory none dest = .ok (dest.getD (.dir []), true)) ∧
    runAssetPhase none none none [] =
      .ok [("css", .dir []), ("js", .dir []), ("images", .dir [])] ∧
    (∀ srcCss srcJs srcImages dist r,
      runAssetPhase srcCss srcJs srcImages dist = .ok r →
      (lookupAssoc "css" r).isSome ∧ (lookupAssoc "js" r).isSome ∧
        (lookupAssoc "images" r).isSome) := by
  refine ⟨fun dest => by cases dest <;> rfl, rfl, ?_⟩
  intro srcCss srcJs srcImages dist r h
  simp only [runAssetPhase, bind, Except.bind] at h
  rcases hcss : copyDirectory srcCss (lookupAssoc "css" dist) with e | css
  · rw [hcss] at h
    exact absurd h (by simp)
  rw [hcss] at h
  dsimp only at h
  rcases hjs : copyDirectory srcJs
      (lookupAssoc "js" (updateAssoc "css" css.1 dist)) with e | js
  · rw [hjs] at h
    exact absurd h (by simp)
  rw [hjs] at h
  dsimp only at h
  rcases himg : copyDirectory srcImages
      (lookupAssoc "images" (updateAssoc "js" js.1 (updateAssoc "css" css.1 dist))) with e | img
  · rw [himg] at h
    exact absurd h (by simp)
  rw [himg] at h
  dsimp only at h
  simp only [pure, Except.pure, Except.ok.injEq] at h
  subst h
  refine ⟨?_, ?_, ?_⟩
  · rw [lookupAssoc_updateAssoc_ne (by decide) img.1,
      lookupAssoc_updateAssoc_ne (by decide) js.1,
      lookupAssoc_updateAssoc_self "css" css.1]
    rfl
  · rw [lookupAssoc_updateAssoc_ne (by decide) img.1,
      lookupAssoc_updateAssoc_self "js" js.1]
    rfl
  · rw [lookupAssoc_updateAssoc_self "images" img.1]
    rfl

/-- Witness for `copyDirectory_mkdir_before_source_check`'s third
conjunct at the concrete all-sources-absent run. -/
theorem copyDirectory_mkdir_before_source_check_witness :
    (lookupAssoc "css" [("css", FsTree.dir []), ("js", FsTree.dir []),
      ("images", FsTree.dir [])]).isSome ∧
    (lookupAssoc "js" [("css", FsTree.dir []), ("js", FsTree.dir []),
      ("images", FsTree.dir [])]).isSome ∧
    (lookupAssoc "images" [("css", FsTree.dir []), ("js", FsTree.dir []),
      ("images", FsTree.dir [])]).isSome := by
  exact copyDirectory_mkdir_before_source_check.2.2 none none none [] _ rfl

/-- C2: the truthy-conditional helper treats every sequence — including the
empty sequence — as truthy (renders the block body), and takes the
else-branch exactly on the JavaScript-falsy values: empty string, 0, null,
undefined, false. -/
theorem if_helper_empty_sequence_truthy :
    (∀ (xs : List JsValue) (fn inverse : String), ifHelper (.arr xs) fn inverse = fn) ∧
    (∀ (v : JsValue) (fn inverse : String),
      ifHelper v fn inverse = if jsFalsySpec v then inverse else fn) := by
  constructor
  · intro xs fn inverse; rfl
  · intro v fn inverse
    cases v <;> simp [ifHelper, truthy, jsFalsySpec]
    case bool b => cases b <;> simp

/-- C3: the iteration helper produces the concatenation of per-element
expansions in sequence order, binding each element with positional
metadata: 0-based `index`, `isFirst` exactly at index 0, `isLast` exactly
at index N-1; the empty sequence produces the empty string. -/
theorem each_helper_positional_spec (α : Type) [Inhabited α] :
    (∀ fn : α → IterData → String, eachHelper ([] : List α) fn = "") ∧
    (∀ (ctx : List α) (fn : α → IterData → String), eachHelper ctx fn = eachSpec ctx fn) := by
  constructor
  · intro fn; rfl
  · intro ctx fn
    match ctx with
    | [] => simp [eachHelper, eachSpec, String.join]
    | a :: t =>
      have hpos : (a :: t).length > 0 := by simp
      simp only [eachHelper, if_pos hpos]
      rw [foldl_append_eq_join (List.range (a :: t).length)
        (fun i => fn ((a :: t).getD i default)
          ⟨i, decide (i = 0), decide (i = (a :: t).length - 1)⟩) ""]
      rw [range_map_getD_eq_enum_map (a :: t)
        (fun i x => fn x ⟨i, decide (i = 0), decide (i = (a :: t).length - 1)⟩)]
      simp [eachSpec]

end ResumeBuilder

